import Mathlib

/-
  Verification of the ESP32 Visual Theta Entrainment firmware
  (src/src/main.cpp) against its natural-language specification.

  Shallow embedding conventions:
  * `float` arithmetic is idealized as exact rational arithmetic (ℚ); the
    float literals of the source (5.8f, 0.35f, ...) become the corresponding
    exact rationals.
  * transcendental library calls (`sinf`) are modelled by an abstract
    parameter `sinF : ℚ → ℚ`; theorems that need facts about the real sine
    (boundedness by 1, nonnegativity on the first half period) take them as
    explicit hypotheses.  `fmodf(x, 1.0f)` is exact on rationals and is
    modelled precisely (C semantics: the result has the sign of the
    dividend).
  * implicit float → integer conversions of C++ truncate toward zero and are
    modelled by `truncQ`.
  * 8-bit color channels are modelled as ℕ; all the writes of the program go
    through `safeClampInt` or `qadd8`, which keep channels in 0..255.
  * the control flow of `loop()` (panic spin loop, session-timeout spin
    loop, frame throttle) is modelled as a step function on a small state
    machine; `Serial` output is returned as a list of the emitted lines.
-/

namespace Theta

/-! ## Compile-time configuration constants (src/src/main.cpp lines 32-84) -/

/-- NUM_LEDS (line 34). -/
def NUM_LEDS : ℕ := 20

/-- LEFT_FREQ_HZ = 5.8f (line 42). -/
def LEFT_FREQ_HZ : ℚ := 29/5

/-- RIGHT_FREQ_HZ = 6.2f (line 43). -/
def RIGHT_FREQ_HZ : ℚ := 31/5

/-- MICRO_ENABLED (line 51): micro-texture disabled by default. -/
def MICRO_ENABLED : Bool := false

/-- MICRO_FREQ_HZ = 45.0f (line 52). -/
def MICRO_FREQ_HZ : ℚ := 45

/-- BREATH_FREQ_HZ = 0.12f (line 55). -/
def BREATH_FREQ_HZ : ℚ := 12/100

/-- GLOBAL_BRIGHTNESS = 70 (line 58). -/
def GLOBAL_BRIGHTNESS : ℕ := 70

/-- FRAME_MS = 10 (line 61), as an integer for the millis() comparison. -/
def FRAME_MS : ℤ := 10

/-- RAMP_IN_SECONDS = 180.0f (line 64). -/
def RAMP_IN_SECONDS : ℚ := 180

/-- MAX_SESSION_SECONDS = 1800.0f (line 67). -/
def MAX_SESSION_SECONDS : ℚ := 1800

/-- MODE_DURATION = 30.0f (line 70). -/
def MODE_DURATION : ℚ := 30

/-- REFLECTION_OFFSET = 2 (line 73). -/
def REFLECTION_OFFSET : ℕ := 2

/-- REFLECTION_DECAY = 0.35f (line 74). -/
def REFLECTION_DECAY : ℚ := 35/100

/-- USE_SINUSOIDAL_MODULATION (line 80). -/
def USE_SINUSOIDAL_MODULATION : Bool := true

/-- USE_PHASE_ENHANCEMENT (line 83). -/
def USE_PHASE_ENHANCEMENT : Bool := true

/-- PHASE_SYNC_STRENGTH = 0.15f (line 84). -/
def PHASE_SYNC_STRENGTH : ℚ := 15/100

/-- TWO_PI, the Arduino constant 2π, idealized as the rational
6.2831853.  The development only uses that it is positive. -/
def TWO_PI : ℚ := 62831853/10000000

/-! ## Safety utilities (lines 110-124) -/

/-- C++ float → int conversion: truncation toward zero. -/
def truncQ (x : ℚ) : ℤ := if 0 ≤ x then ⌊x⌋ else ⌈x⌉

/-- safeClampInt (lines 110-114): clamp an int into an 8-bit channel.  The
call sites pass a float, so the implicit truncating conversion is applied
by the caller (`truncQ`). -/
def safeClampInt (v : ℤ) : ℕ := if v < 0 then 0 else if 255 < v then 255 else v.toNat

/-- clamp01 (lines 116-118). -/
def clamp01 (v : ℚ) : ℚ := if v < 0 then 0 else if 1 < v then 1 else v

/-- qadd8 from FastLED: 8-bit saturating addition, `min (a + b) 255`. -/
def qadd8 (a b : ℕ) : ℕ := min (a + b) 255

/-! ## Phase and modulation math (lines 137-178) -/

/-- fmodf(x, 1.0f) with exact C semantics: `x - trunc x`, so the result has
the sign of the dividend (negative dividends give results in (-1, 0]). -/
def fmod1 (x : ℚ) : ℚ := x - truncQ x

/-- phaseOf (lines 137-139): `fmodf(t * f, 1.0f)`. -/
def phaseOf (t f : ℚ) : ℚ := fmod1 (t * f)

/-- getEnhancedPhase (lines 144-152), parametric in the sine routine. -/
def getEnhancedPhase (sinF : ℚ → ℚ) (t freq syncStrength : ℚ) : ℚ :=
  let basePhase := phaseOf t freq
  if USE_PHASE_ENHANCEMENT = true ∧ 0 < syncStrength then
    fmod1 (basePhase + sinF (TWO_PI * basePhase) * syncStrength)
  else basePhase

/-- sinModSmooth (lines 173-178): `0.5*(1 + sinf(TWO_PI * (t*freq)))`. -/
def sinModSmooth (sinF : ℚ → ℚ) (t freq : ℚ) : ℚ :=
  (1/2) * (1 + sinF (TWO_PI * (t * freq)))

/-! ## Spatial masks (lines 182-206) -/

/-- spiralMask (lines 182-191). -/
def spiralMask (i : ℕ) (t speed : ℚ) : ℚ :=
  let pos : ℚ := (i : ℚ) / (NUM_LEDS : ℚ)
  let shift := fmod1 (t * speed)
  let d := |pos - shift|
  let d := if 1/2 < d then 1 - d else d
  let m := 1 - d * 2
  clamp01 (m + 2/10)

/-- radialMask (lines 193-198), default petals = 8. -/
def radialMask (sinF : ℚ → ℚ) (i : ℕ) (t freq : ℚ) (petals : ℕ) : ℚ :=
  let pos : ℚ := (i : ℚ) / (NUM_LEDS : ℚ)
  let angle := pos * (petals : ℚ)
  let carrier := (1/2) * (sinF (TWO_PI * (t * freq + angle)) + 1)
  clamp01 carrier

/-- interferenceMask (lines 200-206). -/
def interferenceMask (sinF : ℚ → ℚ) (i : ℕ) (t fL fR : ℚ) : ℚ :=
  let pos : ℚ := (i : ℚ) / (NUM_LEDS : ℚ)
  let a := sinF (TWO_PI * (t * fL + pos))
  let b := sinF (TWO_PI * (t * fR - pos))
  clamp01 ((a + b) * (1/4) + 1/2)

/-! ## Colors (lines 210-216, 367-369) -/

/-- CRGB with 8-bit channels modelled as ℕ. -/
structure CRGB where
  r : ℕ
  g : ℕ
  b : ℕ
deriving DecidableEq, Repr

/-- CRGB::Black. -/
def black : CRGB := ⟨0, 0, 0⟩

/-- leftColor = CRGB(255, 120, 40) (line 367). -/
def leftColor : CRGB := ⟨255, 120, 40⟩

/-- rightColor = CRGB(40, 130, 255) (line 368). -/
def rightColor : CRGB := ⟨40, 130, 255⟩

/-- centerColor = CRGB(255, 200, 90) (line 369). -/
def centerColor : CRGB := ⟨255, 200, 90⟩

/-- mixColor (lines 210-216); the float products are truncated by the
implicit conversion at the `safeClampInt` call sites. -/
def mixColor (a b : CRGB) (w : ℚ) : CRGB :=
  ⟨safeClampInt (truncQ ((a.r : ℚ) * (1 - w) + (b.r : ℚ) * w)),
   safeClampInt (truncQ ((a.g : ℚ) * (1 - w) + (b.g : ℚ) * w)),
   safeClampInt (truncQ ((a.b : ℚ) * (1 - w) + (b.b : ℚ) * w))⟩

/-! ## Safety envelope as a pure function of session time (lines 315-334)

The loop applies two time-based safety factors: `rampMul` (smoothstep
ramp-in, multiplied into the channel amplitudes) and, past the session
limit, the squared fade fraction (applied to the global brightness).  The
spec's single "Safety Envelope multiplier" is the product of the two. -/

/-- rampMul (lines 318-320): smoothstep of the clamped ramp fraction. -/
def rampMulQ (t : ℚ) : ℚ :=
  let r := clamp01 (t / RAMP_IN_SECONDS)
  r * r * (3 - 2 * r)

/-- fadeFrac (line 324): `clamp01(1 - (t - MAX_SESSION_SECONDS) / 15)`. -/
def fadeFrac (t : ℚ) : ℚ := clamp01 (1 - (t - MAX_SESSION_SECONDS) / 15)

/-- brightFade: the factor applied to the global brightness; 1 before the
session limit, `fadeFrac²` after it (lines 323-333). -/
def brightFade (t : ℚ) : ℚ :=
  if MAX_SESSION_SECONDS < t then (fadeFrac t) ^ 2 else 1

/-- safetyMultiplier: the spec's Safety Envelope multiplier, the combined
amplitude factor `rampMul · brightFade` produced by lines 315-334. -/
def safetyMultiplier (t : ℚ) : ℚ := rampMulQ t * brightFade t

/-! ### Basic facts about the clamps -/

theorem clamp01_nonneg (v : ℚ) : 0 ≤ clamp01 v := by
  unfold clamp01; split <;> [norm_num; skip]; split <;> [norm_num; linarith [not_lt.mp ‹¬v < 0›]]

theorem clamp01_le_one (v : ℚ) : clamp01 v ≤ 1 := by
  unfold clamp01; split
  · norm_num
  · split
    · norm_num
    · linarith [not_lt.mp ‹¬1 < v›]

theorem clamp01_eq_self {v : ℚ} (h0 : 0 ≤ v) (h1 : v ≤ 1) : clamp01 v = v := by
  unfold clamp01; rw [if_neg (by linarith), if_neg (by linarith)]

theorem clamp01_eq_one {v : ℚ} (h : 1 ≤ v) : clamp01 v = 1 := by
  unfold clamp01
  rcases lt_or_eq_of_le h with h' | h'
  · rw [if_neg (by linarith), if_pos h']
  · rw [if_neg (by linarith), if_neg (by rw [← h']; exact lt_irrefl 1), ← h']

theorem clamp01_eq_zero {v : ℚ} (h : v ≤ 0) : clamp01 v = 0 := by
  unfold clamp01
  rcases lt_or_eq_of_le h with h' | h'
  · rw [if_pos h']
  · rw [h', if_neg (lt_irrefl 0), if_neg (by norm_num)]

theorem rampMulQ_nonneg (t : ℚ) : 0 ≤ rampMulQ t := by
  unfold rampMulQ
  have h0 := clamp01_nonneg (t / RAMP_IN_SECONDS)
  have h1 := clamp01_le_one (t / RAMP_IN_SECONDS)
  nlinarith [sq_nonneg (clamp01 (t / RAMP_IN_SECONDS))]

theorem rampMulQ_le_one (t : ℚ) : rampMulQ t ≤ 1 := by
  unfold rampMulQ
  have h0 := clamp01_nonneg (t / RAMP_IN_SECONDS)
  have h1 := clamp01_le_one (t / RAMP_IN_SECONDS)
  nlinarith [sq_nonneg (1 - clamp01 (t / RAMP_IN_SECONDS))]

theorem brightFade_nonneg (t : ℚ) : 0 ≤ brightFade t := by
  unfold brightFade; split
  · positivity
  · norm_num

theorem brightFade_le_one (t : ℚ) : brightFade t ≤ 1 := by
  unfold brightFade; split
  · have h0 := clamp01_nonneg (1 - (t - MAX_SESSION_SECONDS) / 15)
    have h1 := clamp01_le_one (1 - (t - MAX_SESSION_SECONDS) / 15)
    have : fadeFrac t ≤ 1 := h1
    have : 0 ≤ fadeFrac t := h0
    nlinarith
  · norm_num

/-- Strict monotonicity of the smoothstep polynomial on (0,1). -/
theorem smoothstep_strict_mono {x y : ℚ} (hx : 0 < x) (hxy : x < y) (hy1 : y < 1) :
    x * x * (3 - 2 * x) < y * y * (3 - 2 * y) := by
  have hy : 0 < y := lt_trans hx hxy
  have hx1 : x < 1 := lt_trans hxy hy1
  have hxx : x * x < x := by nlinarith
  have hyy : y * y < y := by nlinarith
  have hxy2 : 2 * (x * y) ≤ x * x + y * y := by nlinarith [sq_nonneg (x - y)]
  have hfac : 0 < 3 * (x + y) - 2 * (x * x + x * y + y * y) := by nlinarith
  nlinarith [mul_pos (sub_pos.mpr hxy) hfac]

/-- C3: for every session elapsed time, the safety envelope multiplier is in
[0,1]; it is strictly increasing on (0, rampInDuration), exactly 1 on
[rampInDuration, maxSessionDuration], strictly decreasing on
(maxSessionDuration, maxSessionDuration + fadeOutDuration) where it equals
`fadeFrac²` with `fadeFrac = clamp01(1 - (t - maxSessionDuration)/15)`, and
exactly 0 thereafter. -/
theorem safety_multiplier_envelope (a b : ℚ) :
    (0 ≤ safetyMultiplier a ∧ safetyMultiplier a ≤ 1)
    ∧ (0 < a → a < b → b < RAMP_IN_SECONDS →
        safetyMultiplier a < safetyMultiplier b)
    ∧ (RAMP_IN_SECONDS ≤ a → a ≤ MAX_SESSION_SECONDS → safetyMultiplier a = 1)
    ∧ (MAX_SESSION_SECONDS < a → a < b → b < MAX_SESSION_SECONDS + 15 →
        safetyMultiplier b < safetyMultiplier a
        ∧ safetyMultiplier a = (fadeFrac a) ^ 2)
    ∧ (MAX_SESSION_SECONDS + 15 ≤ a → safetyMultiplier a = 0) := by
  have h180 : RAMP_IN_SECONDS = (180 : ℚ) := rfl
  have hMax : MAX_SESSION_SECONDS = (1800 : ℚ) := rfl
  have rampEq : ∀ c : ℚ, 0 ≤ c → c ≤ 180 →
      rampMulQ c = (c/180) * (c/180) * (3 - 2 * (c/180)) := by
    intro c hc0 hc1
    simp only [rampMulQ, h180]
    rw [clamp01_eq_self (by positivity) (by linarith)]
  have rampOne : ∀ c : ℚ, RAMP_IN_SECONDS ≤ c → rampMulQ c = 1 := by
    intro c hc
    rw [h180] at hc
    simp only [rampMulQ, h180]
    rw [clamp01_eq_one (by linarith)]
    norm_num
  have fadeOne : ∀ c : ℚ, c ≤ MAX_SESSION_SECONDS → brightFade c = 1 := by
    intro c hc
    simp only [brightFade]
    rw [if_neg (not_lt.mpr hc)]
  refine ⟨⟨?_, ?_⟩, ?_, ?_, ?_, ?_⟩
  · exact mul_nonneg (rampMulQ_nonneg a) (brightFade_nonneg a)
  · have h1 := rampMulQ_le_one a
    have h2 := brightFade_le_one a
    have h3 := rampMulQ_nonneg a
    have h4 := brightFade_nonneg a
    unfold safetyMultiplier
    nlinarith
  · intro ha hab hb
    rw [h180] at hb
    have hb1800 : b ≤ MAX_SESSION_SECONDS := by rw [hMax]; linarith
    have ha1800 : a ≤ MAX_SESSION_SECONDS := le_of_lt (lt_of_lt_of_le hab hb1800)
    unfold safetyMultiplier
    rw [fadeOne a ha1800, fadeOne b hb1800, mul_one, mul_one]
    rw [rampEq a (by linarith) (by linarith), rampEq b (by linarith) (by linarith)]
    exact smoothstep_strict_mono (by positivity) (by linarith) (by linarith)
  · intro ha hb
    unfold safetyMultiplier
    rw [rampOne a ha, fadeOne a hb, mul_one]
  · intro ha hab hb
    rw [hMax] at ha hb
    have hfa : fadeFrac a = 1 - (a - 1800) / 15 := by
      simp only [fadeFrac, hMax]
      exact clamp01_eq_self (by linarith) (by linarith)
    have hfb : fadeFrac b = 1 - (b - 1800) / 15 := by
      simp only [fadeFrac, hMax]
      exact clamp01_eq_self (by linarith) (by linarith)
    have hmul : ∀ c : ℚ, (1800 : ℚ) < c → safetyMultiplier c = (fadeFrac c) ^ 2 := by
      intro c hc
      simp only [safetyMultiplier, brightFade, hMax]
      rw [rampOne c (by rw [h180]; linarith), if_pos hc, one_mul]
    refine ⟨?_, hmul a ha⟩
    rw [hmul a ha, hmul b (by linarith), hfa, hfb]
    have h1 : 0 ≤ 1 - (b - 1800) / 15 := by linarith
    nlinarith [hab]
  · intro ha
    rw [hMax] at ha
    have hfa : fadeFrac a = 0 := by
      simp only [fadeFrac, hMax]
      exact clamp01_eq_zero (by linarith)
    simp only [safetyMultiplier, brightFade, hMax]
    rw [if_pos (by linarith), hfa]
    norm_num

/-- Witness for `safety_multiplier_envelope` at concrete session times. -/
theorem safety_multiplier_envelope_witness :
    safetyMultiplier 90 < safetyMultiplier 100
    ∧ safetyMultiplier 500 = 1
    ∧ (safetyMultiplier 1810 < safetyMultiplier 1805
        ∧ safetyMultiplier 1805 = (fadeFrac 1805) ^ 2)
    ∧ safetyMultiplier 1900 = 0 :=
  ⟨(safety_multiplier_envelope 90 100).2.1 (by norm_num) (by norm_num)
      (by norm_num [RAMP_IN_SECONDS]),
   (safety_multiplier_envelope 500 0).2.2.1 (by norm_num [RAMP_IN_SECONDS])
      (by norm_num [MAX_SESSION_SECONDS]),
   (safety_multiplier_envelope 1805 1810).2.2.2.1 (by norm_num [MAX_SESSION_SECONDS])
      (by norm_num) (by norm_num [MAX_SESSION_SECONDS]),
   (safety_multiplier_envelope 1900 0).2.2.2.2 (by norm_num [MAX_SESSION_SECONDS])⟩

/-! ## C7: range of the enhanced phase -/

/-- fmodf(x, 1.0f) of a nonnegative dividend lies in [0, 1). -/
theorem fmod1_mem_Ico {x : ℚ} (hx : 0 ≤ x) : 0 ≤ fmod1 x ∧ fmod1 x < 1 := by
  unfold fmod1 truncQ
  rw [if_pos hx]
  have h1 := Int.floor_le x
  have h2 := Int.lt_floor_add_one x
  constructor
  · linarith
  · linarith

/-- C7 counterexample: `fmodf` keeps the sign of its dividend, so for a
negative time the phase (and hence the enhanced phase) is negative.  With
`syncStrength = 0` the code returns `phaseOf` directly without evaluating
the sine, so the placeholder sine routine is irrelevant here. -/
theorem enhanced_phase_cex :
    getEnhancedPhase (fun _ => 0) (-(1/2)) 1 0 = -(1/2)
    ∧ ¬ (0 ≤ getEnhancedPhase (fun _ => 0) (-(1/2)) 1 0) := by
  have h : getEnhancedPhase (fun _ => 0) (-(1/2)) 1 0 = -(1/2) := by
    simp only [getEnhancedPhase, phaseOf, fmod1, truncQ, USE_PHASE_ENHANCEMENT]
    norm_num
  exact ⟨h, by rw [h]; norm_num⟩

/-- C7, amended: for nonnegative `t·f` and a sync strength in [0, 1/2] the
enhanced phase lies in [0, 1) (assuming the sine routine is bounded by 1
and nonnegative on the first half period); and for `syncStrength = 0` it
equals `phaseOf t f` exactly, for all `t` and `f`. -/
theorem enhanced_phase_range (sinF : ℚ → ℚ) (t f s : ℚ)
    (hb : ∀ x, -1 ≤ sinF x ∧ sinF x ≤ 1)
    (hpos : ∀ x, 0 ≤ x → x ≤ TWO_PI / 2 → 0 ≤ sinF x) :
    (0 ≤ t * f → 0 ≤ s → s ≤ 1/2 →
      0 ≤ getEnhancedPhase sinF t f s ∧ getEnhancedPhase sinF t f s < 1)
    ∧ getEnhancedPhase sinF t f 0 = phaseOf t f := by
  constructor
  · intro htf hs0 hs1
    have hbase := fmod1_mem_Ico htf
    rcases eq_or_lt_of_le hs0 with hs | hs
    · simp only [getEnhancedPhase, ← hs, lt_irrefl, and_false, if_false]
      exact ⟨hbase.1, hbase.2⟩
    · have hcond : (USE_PHASE_ENHANCEMENT = true ∧ 0 < s) := ⟨rfl, hs⟩
      simp only [getEnhancedPhase, if_pos hcond]
      set p := phaseOf t f with hp
      have hp0 : 0 ≤ p := hbase.1
      have hp1 : p < 1 := hbase.2
      have hTP : TWO_PI = (62831853/10000000 : ℚ) := rfl
      have harg : 0 ≤ p + sinF (TWO_PI * p) * s := by
        rcases le_or_lt p (1/2) with hhalf | hhalf
        · have hsin : 0 ≤ sinF (TWO_PI * p) := by
            apply hpos
            · rw [hTP]; linarith
            · rw [hTP]; linarith
          nlinarith
        · have hsin : -1 ≤ sinF (TWO_PI * p) := (hb (TWO_PI * p)).1
          nlinarith
      exact fmod1_mem_Ico harg
  · simp [getEnhancedPhase]

/-- Witness for `enhanced_phase_range` with the zero sine routine. -/
theorem enhanced_phase_range_witness :
    (0 ≤ getEnhancedPhase (fun _ => 0) 3 2 (1/10)
      ∧ getEnhancedPhase (fun _ => 0) 3 2 (1/10) < 1)
    ∧ getEnhancedPhase (fun _ => 0) 3 2 0 = phaseOf 3 2 := by
  have h := enhanced_phase_range (fun _ => 0) 3 2 (1/10)
    (by intro x; norm_num) (by intro x _ _; norm_num)
  exact ⟨h.1 (by norm_num) (by norm_num) (by norm_num), h.2⟩

/-! ## Frame rendering (lines 241-243 and 336-442)

The LED buffer is modelled as a total function from physical index to
color; `setLed` is an array store.  The three render loops become folds
over the explicit lists of logical positions they visit. -/

/-- spiralOrder array (lines 241-243): logical render order → physical
index. -/
def spiralOrderList : List ℕ := [9, 10, 8, 11, 7, 12, 6, 13, 5, 14, 4, 15, 3, 16, 2, 17, 1, 18, 0, 19]

/-- spiralOrder lookup, `spiralOrder[i]`. -/
def spiralOrder (i : ℕ) : ℕ := spiralOrderList.getD i 0

/-- an LED buffer: physical index → color. -/
def LedBuf : Type := ℕ → CRGB

/-- store one LED (an array assignment `leds[i] = c`). -/
def setLed (buf : LedBuf) (i : ℕ) (c : CRGB) : LedBuf :=
  fun j => if j = i then c else buf j

/-- the cleared buffer (line 372 / fill_solid black). -/
def clearBuf : LedBuf := fun _ => black

/-- mandalaMode (line 337): `((int)(t / MODE_DURATION)) % 3` with C
truncated division and truncated (sign-preserving) remainder. -/
def mandalaMode (t : ℚ) : ℤ := Int.tmod (truncQ (t / MODE_DURATION)) 3

/-- finalAmpL (lines 346-363): the left channel amplitude after sinusoidal
modulation, micro texture, smoothstep ramp and breathing envelope.
`USE_SINUSOIDAL_MODULATION` is compile-time true, so `ampL` is the smooth
sinusoidal modulation. -/
def finalAmpL (sinF : ℚ → ℚ) (t : ℚ) : ℚ :=
  let ampL := sinModSmooth sinF t LEFT_FREQ_HZ
  let micro : ℚ := if MICRO_ENABLED then (1/2) * (sinF (TWO_PI * MICRO_FREQ_HZ * t) + 1) else 1
  let breathe := 85/100 + (15/100) * sinF (TWO_PI * BREATH_FREQ_HZ * t)
  clamp01 (ampL * micro * rampMulQ t * breathe)

/-- finalAmpR: right-channel counterpart of `finalAmpL`. -/
def finalAmpR (sinF : ℚ → ℚ) (t : ℚ) : ℚ :=
  let ampR := sinModSmooth sinF t RIGHT_FREQ_HZ
  let micro : ℚ := if MICRO_ENABLED then (1/2) * (sinF (TWO_PI * MICRO_FREQ_HZ * t) + 1) else 1
  let breathe := 85/100 + (15/100) * sinF (TWO_PI * BREATH_FREQ_HZ * t)
  clamp01 (ampR * micro * rampMulQ t * breathe)

/-- coreValueL (lines 375-385): the color stored for logical position `i`
of the left core. -/
def coreValueL (t finalL : ℚ) (i : ℕ) : CRGB :=
  let mask := spiralMask i t (1/4 + LEFT_FREQ_HZ * (2/100))
  let amp := finalL * mask
  ⟨safeClampInt (truncQ ((leftColor.r : ℚ) * amp)),
   safeClampInt (truncQ ((leftColor.g : ℚ) * amp)),
   safeClampInt (truncQ ((leftColor.b : ℚ) * amp))⟩

/-- coreValueR (lines 388-398): the color stored for logical position `i`
of the right core. -/
def coreValueR (t finalR : ℚ) (i : ℕ) : CRGB :=
  let mask := spiralMask i t (1/4 + RIGHT_FREQ_HZ * (2/100))
  let amp := finalR * mask
  ⟨safeClampInt (truncQ ((rightColor.r : ℚ) * amp)),
   safeClampInt (truncQ ((rightColor.g : ℚ) * amp)),
   safeClampInt (truncQ ((rightColor.b : ℚ) * amp))⟩

/-- leftCore (lines 375-385): `for (i = 0; i < 3; ++i)`. -/
def leftCore (t finalL : ℚ) (buf : LedBuf) : LedBuf :=
  [0, 1, 2].foldl (fun b i => setLed b (spiralOrder i) (coreValueL t finalL i)) buf

/-- rightCore (lines 388-398): `for (i = NUM_LEDS-3; i < NUM_LEDS; ++i)`. -/
def rightCore (t finalR : ℚ) (buf : LedBuf) : LedBuf :=
  [17, 18, 19].foldl (fun b i => setLed b (spiralOrder i) (coreValueR t finalR i)) buf

/-- anchorValue (lines 400-409): the amber color written to both center
anchors, scaled by the averaged amplitude. -/
def anchorValue (finalL finalR : ℚ) : CRGB :=
  let centerAmp := clamp01 ((finalL + finalR) * (1/2))
  ⟨safeClampInt (truncQ ((centerColor.r : ℚ) * centerAmp)),
   safeClampInt (truncQ ((centerColor.g : ℚ) * centerAmp)),
   safeClampInt (truncQ ((centerColor.b : ℚ) * centerAmp))⟩

/-- centerAnchors (lines 400-410): write `spiralOrder[0]` and then copy the
stored value to `spiralOrder[1]` (`leds[c1] = leds[c0]`). -/
def centerAnchors (finalL finalR : ℚ) (buf : LedBuf) : LedBuf :=
  let c0 := spiralOrder 0
  let c1 := spiralOrder 1
  let b1 := setLed buf c0 (anchorValue finalL finalR)
  setLed b1 c1 (b1 c0)

/-- bodyRGB (lines 414-430): the main-body `int r, g, b` values for logical
position `pos` before clamping, as a function of time, the final
amplitudes and the mandala mode. -/
def bodyRGB (sinF : ℚ → ℚ) (t finalL finalR : ℚ) (mode : ℤ) (pos : ℕ) : ℤ × ℤ × ℤ :=
  let mask : ℚ :=
    if mode = 0 then radialMask sinF pos t ((LEFT_FREQ_HZ + RIGHT_FREQ_HZ) * (1/2)) 8
    else if mode = 1 then spiralMask pos t (3/10 + (2/100) * ((LEFT_FREQ_HZ + RIGHT_FREQ_HZ) * (1/2)))
    else interferenceMask sinF pos t LEFT_FREQ_HZ RIGHT_FREQ_HZ
  let mask := clamp01 mask
  let stereoMix : ℚ := if pos < NUM_LEDS / 2 then 8/10 else 2/10
  let mixedAmp := clamp01 (mask * (stereoMix * finalL + (1 - stereoMix) * finalR))
  let blended := mixColor centerColor (mixColor leftColor rightColor (1/2)) (6/10)
  (truncQ ((blended.r : ℚ) * mixedAmp),
   truncQ ((blended.g : ℚ) * mixedAmp),
   truncQ ((blended.b : ℚ) * mixedAmp))

/-- mkPrimary (line 432): `CRGB(safeClampInt(r), safeClampInt(g),
safeClampInt(b))`. -/
def mkPrimary (rgb : ℤ × ℤ × ℤ) : CRGB :=
  ⟨safeClampInt rgb.1, safeClampInt rgb.2.1, safeClampInt rgb.2.2⟩

/-- echoAmt: `(uint8_t)(r * REFLECTION_DECAY)` (lines 438-440), the
truncated decayed channel contribution. -/
def echoAmt (v : ℤ) : ℕ := (truncQ ((v : ℚ) * REFLECTION_DECAY)).toNat

/-- echoApply (lines 438-440): saturating add of the decayed contribution
onto the color already stored at the echo target. -/
def echoApply (c : CRGB) (rgb : ℤ × ℤ × ℤ) : CRGB :=
  ⟨qadd8 c.r (echoAmt rgb.1), qadd8 c.g (echoAmt rgb.2.1), qadd8 c.b (echoAmt rgb.2.2)⟩

/-- bodyStep (lines 413-442): one iteration of the main-body loop at
logical position `pos`: store the primary color at `spiralOrder[pos]`,
then, if `pos + REFLECTION_OFFSET < NUM_LEDS`, saturating-add the decayed
echo at `spiralOrder[pos + REFLECTION_OFFSET]`. -/
def bodyStep (sinF : ℚ → ℚ) (t finalL finalR : ℚ) (mode : ℤ) (buf : LedBuf) (pos : ℕ) : LedBuf :=
  let idx := spiralOrder pos
  let rgb := bodyRGB sinF t finalL finalR mode pos
  let buf1 := setLed buf idx (mkPrimary rgb)
  let echoPos := pos + REFLECTION_OFFSET
  if echoPos < NUM_LEDS then
    let eIdx := spiralOrder echoPos
    setLed buf1 eIdx (echoApply (buf1 eIdx) rgb)
  else buf1

/-- the iteration sequence of `for (pos = 2; pos < NUM_LEDS - 2; ++pos)`
(line 413). -/
def bodyList : List ℕ := [2, 3, 4, 5, 6, 7, 8, 9, 10, 11, 12, 13, 14, 15, 16, 17]

/-- mainBody (lines 413-442): the whole main-body loop. -/
def mainBody (sinF : ℚ → ℚ) (t finalL finalR : ℚ) (mode : ℤ) (buf : LedBuf) : LedBuf :=
  bodyList.foldl (bodyStep sinF t finalL finalR mode) buf

/-- frameLeds (lines 336-442): the LED buffer computed by one full frame at
elapsed time `t` (clear, left core, right core, center anchors, main
body). -/
def frameLeds (sinF : ℚ → ℚ) (t : ℚ) : LedBuf :=
  let finalL := finalAmpL sinF t
  let finalR := finalAmpR sinF t
  let mode := mandalaMode t
  mainBody sinF t finalL finalR mode
    (centerAnchors finalL finalR (rightCore t finalR (leftCore t finalL clearBuf)))

/-! ## Reading back the rendered buffer -/

theorem REFLECTION_OFFSET_eq : REFLECTION_OFFSET = 2 := rfl

theorem NUM_LEDS_eq : NUM_LEDS = 20 := rfl

/-- spiralOrder is injective on the valid index range (it is a permutation
of 0..19). -/
theorem spiralOrder_inj : ∀ a, a < 20 → ∀ b, b < 20 → spiralOrder a = spiralOrder b → a = b := by
  decide

theorem spiralOrder_ne {a b : ℕ} (hab : a ≠ b) (ha : a < 20) (hb : b < 20) :
    spiralOrder a ≠ spiralOrder b :=
  fun h => hab (spiralOrder_inj a ha b hb h)

theorem setLed_eq (buf : LedBuf) (i : ℕ) (c : CRGB) : setLed buf i c i = c := if_pos rfl

theorem setLed_ne (buf : LedBuf) (i : ℕ) (c : CRGB) {j : ℕ} (h : j ≠ i) :
    setLed buf i c j = buf j := if_neg h

/-- one body iteration leaves alone every physical index it does not
write. -/
theorem bodyStep_read_untouched (sinF : ℚ → ℚ) (t fL fR : ℚ) (mode : ℤ) (buf : LedBuf)
    (pos : ℕ) {j : ℕ} (h1 : j ≠ spiralOrder pos)
    (h2 : j ≠ spiralOrder (pos + REFLECTION_OFFSET)) :
    bodyStep sinF t fL fR mode buf pos j = buf j := by
  simp only [bodyStep]
  split_ifs with he
  · rw [setLed_ne _ _ _ h2, setLed_ne _ _ _ h1]
  · rw [setLed_ne _ _ _ h1]

/-- one body iteration stores the primary color at its own physical
index. -/
theorem bodyStep_read_primary (sinF : ℚ → ℚ) (t fL fR : ℚ) (mode : ℤ) (buf : LedBuf)
    (pos : ℕ) (h : spiralOrder (pos + REFLECTION_OFFSET) ≠ spiralOrder pos) :
    bodyStep sinF t fL fR mode buf pos (spiralOrder pos)
      = mkPrimary (bodyRGB sinF t fL fR mode pos) := by
  simp only [bodyStep]
  split_ifs with he
  · rw [setLed_ne _ _ _ (Ne.symm h), setLed_eq]
  · rw [setLed_eq]

/-- one body iteration saturating-adds the echo at the offset physical
index. -/
theorem bodyStep_read_echo (sinF : ℚ → ℚ) (t fL fR : ℚ) (mode : ℤ) (buf : LedBuf)
    (pos : ℕ) (h : spiralOrder pos ≠ spiralOrder (pos + REFLECTION_OFFSET))
    (hlt : pos + REFLECTION_OFFSET < NUM_LEDS) :
    bodyStep sinF t fL fR mode buf pos (spiralOrder (pos + REFLECTION_OFFSET))
      = echoApply (buf (spiralOrder (pos + REFLECTION_OFFSET)))
          (bodyRGB sinF t fL fR mode pos) := by
  simp only [bodyStep]
  rw [if_pos hlt, setLed_eq, setLed_ne _ _ _ (Ne.symm h)]

/-- a run of body iterations leaves alone every physical index none of
them writes. -/
theorem foldl_body_untouched (sinF : ℚ → ℚ) (t fL fR : ℚ) (mode : ℤ) :
    ∀ (l : List ℕ) (buf : LedBuf) (j : ℕ),
      (∀ p ∈ l, j ≠ spiralOrder p ∧ j ≠ spiralOrder (p + REFLECTION_OFFSET)) →
      l.foldl (bodyStep sinF t fL fR mode) buf j = buf j := by
  intro l
  induction l with
  | nil => intro buf j _; rfl
  | cons p l' ih =>
    intro buf j h
    have hp := h p (List.mem_cons_self p l')
    rw [List.foldl_cons, ih _ _ (fun x hx => h x (List.mem_cons_of_mem p hx))]
    exact bodyStep_read_untouched sinF t fL fR mode buf p hp.1 hp.2

/-- after a strictly ascending run of body iterations that includes
position `q`, the physical LED `spiralOrder q` holds exactly the primary
body color of `q`: any echo previously added there has been overwritten. -/
theorem foldl_body_primary (sinF : ℚ → ℚ) (t fL fR : ℚ) (mode : ℤ) :
    ∀ (l : List ℕ) (buf : LedBuf) (q : ℕ), q ∈ l → l.Pairwise (· < ·) →
      (∀ p ∈ l, p + REFLECTION_OFFSET < NUM_LEDS) →
      l.foldl (bodyStep sinF t fL fR mode) buf (spiralOrder q)
        = mkPrimary (bodyRGB sinF t fL fR mode q) := by
  intro l
  induction l with
  | nil => intro buf q hq _ _; exact absurd hq (List.not_mem_nil q)
  | cons p l' ih =>
    intro buf q hq hsort hlt
    have hs := List.pairwise_cons.mp hsort
    rw [List.foldl_cons]
    rcases List.mem_cons.mp hq with rfl | hq'
    · have hq2 : q + REFLECTION_OFFSET < NUM_LEDS := hlt q (List.mem_cons_self q l')
      rw [REFLECTION_OFFSET_eq, NUM_LEDS_eq] at hq2
      have hq20 : q < 20 := by omega
      rw [foldl_body_untouched sinF t fL fR mode l' _ _ ?untouched]
      · exact bodyStep_read_primary sinF t fL fR mode buf q
          (by rw [REFLECTION_OFFSET_eq]
              exact spiralOrder_ne (by omega) (by omega) hq20)
      case untouched =>
        intro x hx
        have hqx : q < x := hs.1 x hx
        have hx2 : x + REFLECTION_OFFSET < NUM_LEDS := hlt x (List.mem_cons_of_mem q hx)
        rw [REFLECTION_OFFSET_eq, NUM_LEDS_eq] at hx2
        rw [REFLECTION_OFFSET_eq]
        exact ⟨spiralOrder_ne (by omega) hq20 (by omega),
               spiralOrder_ne (by omega) hq20 (by omega)⟩
    · exact ih _ _ hq' hs.2 (fun x hx => hlt x (List.mem_cons_of_mem p hx))

/-- the final buffer at physical LED `spiralOrder 19`: only the echo of
body position 17 ever reaches it, on top of whatever the earlier render
stages stored there. -/
theorem mainBody_read_19 (sinF : ℚ → ℚ) (t fL fR : ℚ) (mode : ℤ) (buf : LedBuf) :
    mainBody sinF t fL fR mode buf (spiralOrder 19)
      = echoApply (buf (spiralOrder 19)) (bodyRGB sinF t fL fR mode 17) := by
  have hsplit : bodyList = [2, 3, 4, 5, 6, 7, 8, 9, 10, 11, 12, 13, 14, 15, 16] ++ [17] := rfl
  unfold mainBody
  rw [hsplit, List.foldl_append, List.foldl_cons, List.foldl_nil]
  have h19 : spiralOrder 19 = spiralOrder (17 + REFLECTION_OFFSET) := rfl
  rw [h19, bodyStep_read_echo sinF t fL fR mode _ 17 (by decide) (by decide),
    foldl_body_untouched sinF t fL fR mode _ _ _ (by decide)]

/-- the final buffer at physical LED `spiralOrder 18`: only the echo of
body position 16 ever reaches it. -/
theorem mainBody_read_18 (sinF : ℚ → ℚ) (t fL fR : ℚ) (mode : ℤ) (buf : LedBuf) :
    mainBody sinF t fL fR mode buf (spiralOrder 18)
      = echoApply (buf (spiralOrder 18)) (bodyRGB sinF t fL fR mode 16) := by
  have hsplit : bodyList = [2, 3, 4, 5, 6, 7, 8, 9, 10, 11, 12, 13, 14, 15] ++ [16, 17] := rfl
  unfold mainBody
  rw [hsplit, List.foldl_append, List.foldl_cons, List.foldl_cons, List.foldl_nil]
  rw [bodyStep_read_untouched sinF t fL fR mode _ 17 (by decide) (by decide)]
  have h18 : spiralOrder 18 = spiralOrder (16 + REFLECTION_OFFSET) := rfl
  rw [h18, bodyStep_read_echo sinF t fL fR mode _ 16 (by decide) (by decide),
    foldl_body_untouched sinF t fL fR mode _ _ _ (by decide)]

/-- C10: an echo written to a logical position the main-body loop has not
yet reached (positions up to NUM_LEDS-3 = 17) is overwritten by that
position's later primary write, so in the submitted buffer the body
positions 2..17 hold exactly the echo-free primary color, only the final
REFLECTION_OFFSET logical positions 18 and 19 retain an echo contribution
(saturating-added onto what the earlier stages stored there), and
positions 0 and 1 are untouched by the body loop. -/
theorem echo_overwritten_by_primary (sinF : ℚ → ℚ) (t fL fR : ℚ) (mode : ℤ)
    (buf : LedBuf) (q : ℕ) :
    (2 ≤ q → q < 18 →
      mainBody sinF t fL fR mode buf (spiralOrder q)
        = mkPrimary (bodyRGB sinF t fL fR mode q))
    ∧ (18 ≤ q → q < 20 →
      mainBody sinF t fL fR mode buf (spiralOrder q)
        = echoApply (buf (spiralOrder q)) (bodyRGB sinF t fL fR mode (q - 2)))
    ∧ (q < 2 → mainBody sinF t fL fR mode buf (spiralOrder q) = buf (spiralOrder q)) := by
  refine ⟨?_, ?_, ?_⟩
  · intro h2 h18
    have hmem : q ∈ bodyList := by
      have : ∀ r, r < 18 → 2 ≤ r → r ∈ bodyList := by decide
      exact this q h18 h2
    exact foldl_body_primary sinF t fL fR mode bodyList buf q hmem (by decide) (by decide)
  · intro h18 h20
    rcases (by omega : q = 18 ∨ q = 19) with rfl | rfl
    · simpa using mainBody_read_18 sinF t fL fR mode buf
    · simpa using mainBody_read_19 sinF t fL fR mode buf
  · intro h2
    rcases (by omega : q = 0 ∨ q = 1) with rfl | rfl
    · exact foldl_body_untouched sinF t fL fR mode bodyList buf _ (by decide)
    · exact foldl_body_untouched sinF t fL fR mode bodyList buf _ (by decide)

/-- Witness for `echo_overwritten_by_primary` at body position 5 and echo
position 19. -/
theorem echo_overwritten_by_primary_witness :
    mainBody (fun _ => 0) 0 0 0 0 clearBuf (spiralOrder 5)
      = mkPrimary (bodyRGB (fun _ => 0) 0 0 0 0 5)
    ∧ mainBody (fun _ => 0) 0 0 0 0 clearBuf (spiralOrder 19)
      = echoApply (clearBuf (spiralOrder 19)) (bodyRGB (fun _ => 0) 0 0 0 0 17) :=
  ⟨(echo_overwritten_by_primary (fun _ => 0) 0 0 0 0 clearBuf 5).1
      (by norm_num) (by norm_num),
   (echo_overwritten_by_primary (fun _ => 0) 0 0 0 0 clearBuf 19).2.1
      (by norm_num) (by norm_num)⟩

/-! ## Reading back the core and anchor stages -/

theorem leftCore_read_other (t fL : ℚ) (buf : LedBuf) {j : ℕ}
    (h0 : j ≠ spiralOrder 0) (h1 : j ≠ spiralOrder 1) (h2 : j ≠ spiralOrder 2) :
    leftCore t fL buf j = buf j := by
  simp only [leftCore, List.foldl_cons, List.foldl_nil]
  rw [setLed_ne _ _ _ h2, setLed_ne _ _ _ h1, setLed_ne _ _ _ h0]

theorem rightCore_read_18 (t fR : ℚ) (buf : LedBuf) :
    rightCore t fR buf (spiralOrder 18) = coreValueR t fR 18 := by
  simp only [rightCore, List.foldl_cons, List.foldl_nil]
  rw [setLed_ne _ _ _ (by decide : spiralOrder 18 ≠ spiralOrder 19), setLed_eq]

theorem rightCore_read_19 (t fR : ℚ) (buf : LedBuf) :
    rightCore t fR buf (spiralOrder 19) = coreValueR t fR 19 := by
  simp only [rightCore, List.foldl_cons, List.foldl_nil]
  rw [setLed_eq]

theorem centerAnchors_read_0 (fL fR : ℚ) (buf : LedBuf) :
    centerAnchors fL fR buf (spiralOrder 0) = anchorValue fL fR := by
  simp only [centerAnchors]
  rw [setLed_ne _ _ _ (by decide : spiralOrder 0 ≠ spiralOrder 1), setLed_eq]

theorem centerAnchors_read_1 (fL fR : ℚ) (buf : LedBuf) :
    centerAnchors fL fR buf (spiralOrder 1) = anchorValue fL fR := by
  simp only [centerAnchors]
  rw [setLed_eq, setLed_eq]

theorem centerAnchors_read_other (fL fR : ℚ) (buf : LedBuf) {j : ℕ}
    (h0 : j ≠ spiralOrder 0) (h1 : j ≠ spiralOrder 1) :
    centerAnchors fL fR buf j = buf j := by
  simp only [centerAnchors]
  rw [setLed_ne _ _ _ h1, setLed_ne _ _ _ h0]

/-- C8 counterexample: the end LEDs do not carry exclusively their own
channel's color.  At `t = 180` (with the placeholder zero sine routine,
which fixes concrete amplitudes) the physical LED `spiralOrder 0` — the
first logical left-end position — holds the amber center-anchor color, not
the left-core color that the claim says it carries exclusively: the two
center-anchor writes of lines 400-410 overwrite logical positions 0 and 1
of the left core. -/
theorem exclusive_end_leds_cex :
    frameLeds (fun _ => 0) 180 (spiralOrder 0)
      ≠ coreValueL 180 (finalAmpL (fun _ => 0) 180) 0 := by
  have hread : frameLeds (fun _ => 0) 180 (spiralOrder 0)
      = anchorValue (finalAmpL (fun _ => 0) 180) (finalAmpR (fun _ => 0) 180) := by
    simp only [frameLeds]
    unfold mainBody
    rw [foldl_body_untouched _ _ _ _ _ bodyList _ _ (by decide), centerAnchors_read_0]
  have hampL : finalAmpL (fun _ => 0) 180 = 17/40 := by
    norm_num [finalAmpL, sinModSmooth, rampMulQ, MICRO_ENABLED, RAMP_IN_SECONDS, clamp01]
  have hampR : finalAmpR (fun _ => 0) 180 = 17/40 := by
    norm_num [finalAmpR, sinModSmooth, rampMulQ, MICRO_ENABLED, RAMP_IN_SECONDS, clamp01]
  have hanchor : anchorValue (17/40) (17/40) = ⟨108, 85, 38⟩ := by
    norm_num [anchorValue, centerColor, clamp01, truncQ, safeClampInt]
    all_goals decide
  have hcore : coreValueL 180 (17/40) 0 = ⟨104, 48, 16⟩ := by
    have habs : |(22:ℚ)/25| = 22/25 := abs_of_nonneg (by norm_num)
    norm_num [coreValueL, spiralMask, leftColor, LEFT_FREQ_HZ, NUM_LEDS, fmod1,
      truncQ, clamp01, safeClampInt, habs]
    all_goals decide
  rw [hread, hampL, hampR, hanchor, hcore]
  decide

/-- C8, amended: in every rendered frame exactly two distinct center-anchor
LEDs (`spiralOrder 0` and `spiralOrder 1`) carry the amber color scaled by
the average of the two final channel amplitudes; but the end LEDs are not
exclusive to their channels: logical left-end positions 0 and 1 are
overwritten by the center anchors, logical positions 2 and 17 are
overwritten by the main-body pattern, and the last two right-end positions
18 and 19 carry the right channel's color with a saturating reflection
echo added on top. -/
theorem center_anchor_and_end_leds (sinF : ℚ → ℚ) (t : ℚ) :
    spiralOrder 0 ≠ spiralOrder 1
    ∧ frameLeds sinF t (spiralOrder 0)
        = anchorValue (finalAmpL sinF t) (finalAmpR sinF t)
    ∧ frameLeds sinF t (spiralOrder 1)
        = anchorValue (finalAmpL sinF t) (finalAmpR sinF t)
    ∧ frameLeds sinF t (spiralOrder 2)
        = mkPrimary (bodyRGB sinF t (finalAmpL sinF t) (finalAmpR sinF t) (mandalaMode t) 2)
    ∧ frameLeds sinF t (spiralOrder 17)
        = mkPrimary (bodyRGB sinF t (finalAmpL sinF t) (finalAmpR sinF t) (mandalaMode t) 17)
    ∧ frameLeds sinF t (spiralOrder 18)
        = echoApply (coreValueR t (finalAmpR sinF t) 18)
            (bodyRGB sinF t (finalAmpL sinF t) (finalAmpR sinF t) (mandalaMode t) 16)
    ∧ frameLeds sinF t (spiralOrder 19)
        = echoApply (coreValueR t (finalAmpR sinF t) 19)
            (bodyRGB sinF t (finalAmpL sinF t) (finalAmpR sinF t) (mandalaMode t) 17) := by
  refine ⟨by decide, ?_, ?_, ?_, ?_, ?_, ?_⟩
  · simp only [frameLeds]
    unfold mainBody
    rw [foldl_body_untouched _ _ _ _ _ bodyList _ _ (by decide), centerAnchors_read_0]
  · simp only [frameLeds]
    unfold mainBody
    rw [foldl_body_untouched _ _ _ _ _ bodyList _ _ (by decide), centerAnchors_read_1]
  · simp only [frameLeds]
    exact foldl_body_primary _ _ _ _ _ bodyList _ 2 (by decide) (by decide) (by decide)
  · simp only [frameLeds]
    exact foldl_body_primary _ _ _ _ _ bodyList _ 17 (by decide) (by decide) (by decide)
  · simp only [frameLeds]
    rw [mainBody_read_18, centerAnchors_read_other _ _ _ (by decide) (by decide),
      rightCore_read_18]
  · simp only [frameLeds]
    rw [mainBody_read_19, centerAnchors_read_other _ _ _ (by decide) (by decide),
      rightCore_read_19]

/-- C9: adding the decayed reflection contribution (the `echoApply` store
performed by `bodyStep` at every main-body position) uses saturating
addition: for every color already stored at the echo target, each
resulting 8-bit channel equals the true sum capped at 255, hence never
exceeds 255 and never wraps around (it is never below the stored
channel). -/
theorem echo_saturating_add (c : CRGB) (rgb : ℤ × ℤ × ℤ)
    (hr : c.r ≤ 255) (hg : c.g ≤ 255) (hb : c.b ≤ 255) :
    ((echoApply c rgb).r ≤ 255 ∧ (echoApply c rgb).g ≤ 255 ∧ (echoApply c rgb).b ≤ 255)
    ∧ ((echoApply c rgb).r = min (c.r + echoAmt rgb.1) 255
        ∧ (echoApply c rgb).g = min (c.g + echoAmt rgb.2.1) 255
        ∧ (echoApply c rgb).b = min (c.b + echoAmt rgb.2.2) 255)
    ∧ (c.r ≤ (echoApply c rgb).r ∧ c.g ≤ (echoApply c rgb).g ∧ c.b ≤ (echoApply c rgb).b) := by
  refine ⟨⟨min_le_right _ _, min_le_right _ _, min_le_right _ _⟩, ⟨rfl, rfl, rfl⟩, ?_, ?_, ?_⟩
  · exact le_min (Nat.le_add_right _ _) hr
  · exact le_min (Nat.le_add_right _ _) hg
  · exact le_min (Nat.le_add_right _ _) hb

/-- Witness for `echo_saturating_add` on a near-saturated stored color. -/
theorem echo_saturating_add_witness :
    ((echoApply ⟨250, 255, 10⟩ (255, 255, 100)).r ≤ 255
      ∧ (echoApply ⟨250, 255, 10⟩ (255, 255, 100)).g ≤ 255
      ∧ (echoApply ⟨250, 255, 10⟩ (255, 255, 100)).b ≤ 255)
    ∧ ((echoApply ⟨250, 255, 10⟩ (255, 255, 100)).r = min (250 + echoAmt 255) 255
        ∧ (echoApply ⟨250, 255, 10⟩ (255, 255, 100)).g = min (255 + echoAmt 255) 255
        ∧ (echoApply ⟨250, 255, 10⟩ (255, 255, 100)).b = min (10 + echoAmt 100) 255)
    ∧ (250 ≤ (echoApply ⟨250, 255, 10⟩ (255, 255, 100)).r
        ∧ 255 ≤ (echoApply ⟨250, 255, 10⟩ (255, 255, 100)).g
        ∧ 10 ≤ (echoApply ⟨250, 255, 10⟩ (255, 255, 100)).b) :=
  echo_saturating_add ⟨250, 255, 10⟩ (255, 255, 100)
    (by norm_num) (by norm_num) (by norm_num)

/-! ## Control flow of `loop()` (lines 293-445)

One call of the model step function corresponds to one iteration of the
scheduler: a full `loop()` invocation while running, or one pass of the
inner `while (true)` body once the program is stuck in the panic spin loop
(lines 300-306) or the session-timeout spin loop (line 329).  Inputs read
from the outside world during the iteration (panic pin level, `millis()`,
the hardware-timer elapsed seconds) are bundled in `LoopInput`.  Serial
output emitted during the iteration is returned alongside the new
state. -/

/-- control location of the program. `Running` is the normal `loop()`
entry; `PanicSpin` is the inner `while (true)` of lines 300-306;
`HaltSpin` is the `while (true) delay(1000)` of line 329. -/
inductive Ctl
  | Running
  | PanicSpin
  | HaltSpin
deriving DecidableEq, Repr

/-- mutable program state across iterations: control location, the LED
buffer last pushed to the strip, the FastLED global brightness, and
`lastFrameMs`. -/
structure Machine where
  ctl : Ctl
  leds : LedBuf
  brightness : ℕ
  lastFrameMs : ℕ

/-- external inputs sampled during one iteration: `digitalRead(PANIC_PIN)
== LOW`, `millis()`, and the session-relative hardware-timer seconds
`t = getTimeSeconds() - tStart`. -/
structure LoopInput where
  panicLow : Bool
  nowMs : ℕ
  t : ℚ

/-- the frame body (lines 315-445): time and safety limits, then the full
render and `FastLED.show()`.  Executed only after the panic check and the
frame-rate throttle. -/
def frameBody (sinF : ℚ → ℚ) (t : ℚ) (m : Machine) : Machine × List String :=
  if MAX_SESSION_SECONDS < t then
    if fadeFrac t ≤ 1/100 then
      ({ m with ctl := Ctl.HaltSpin, leds := clearBuf },
       ["Session timeout reached. Shutting down."])
    else
      ({ m with
          leds := frameLeds sinF t
          brightness := (truncQ ((GLOBAL_BRIGHTNESS : ℚ) * (fadeFrac t) ^ 2)).toNat }, [])
  else
    ({ m with leds := frameLeds sinF t }, [])

/-- one scheduler iteration (lines 293-445 plus the two terminal spin
loops).  The panic input is read first, before any other computation;
`millis()` throttling uses 32-bit unsigned subtraction. -/
def step (sinF : ℚ → ℚ) (inp : LoopInput) (m : Machine) : Machine × List String :=
  match m.ctl with
  | Ctl.PanicSpin =>
      (m, if inp.panicLow then [] else ["Panic button released. System halted."])
  | Ctl.HaltSpin => (m, [])
  | Ctl.Running =>
      if inp.panicLow then
        ({ m with ctl := Ctl.PanicSpin, leds := clearBuf },
         ["!!! PANIC STOP ACTIVATED !!!"])
      else if ((inp.nowMs : ℤ) - (m.lastFrameMs : ℤ)) % 2 ^ 32 < FRAME_MS then
        (m, [])
      else
        frameBody sinF inp.t { m with lastFrameMs := inp.nowMs }

/-- C1: for every elapsed time and every prior running state (any LED
buffer, any brightness, hence in particular during ramp-in or fade-out),
an asserted panic input forces every LED to (0,0,0) within the same
iteration; and the panic input is evaluated first, before any other
computation: the outcome is identical for any two iterations with panic
asserted, whatever their time, millis reading, or sine routine. -/
theorem panic_forces_black (sinF sinF' : ℚ → ℚ) (inp inp' : LoopInput) (m : Machine)
    (hm : m.ctl = Ctl.Running) (hp : inp.panicLow = true) (hp' : inp'.panicLow = true) :
    (step sinF inp m).1.leds = clearBuf
    ∧ (step sinF inp m).1.ctl = Ctl.PanicSpin
    ∧ step sinF inp m = step sinF' inp' m := by
  refine ⟨?_, ?_, ?_⟩ <;> simp [step, hm, hp, hp']

/-- Witness for `panic_forces_black`: panic pressed at t = 42 during
ramp-in. -/
theorem panic_forces_black_witness :
    (step (fun _ => 0) ⟨true, 7, 42⟩ ⟨Ctl.Running, frameLeds (fun _ => 0) 41, 70, 5⟩).1.leds
      = clearBuf
    ∧ (step (fun _ => 0) ⟨true, 7, 42⟩ ⟨Ctl.Running, frameLeds (fun _ => 0) 41, 70, 5⟩).1.ctl
      = Ctl.PanicSpin
    ∧ step (fun _ => 0) ⟨true, 7, 42⟩ ⟨Ctl.Running, frameLeds (fun _ => 0) 41, 70, 5⟩
      = step (fun _ => 1) ⟨true, 99, 1805⟩ ⟨Ctl.Running, frameLeds (fun _ => 0) 41, 70, 5⟩ :=
  panic_forces_black (fun _ => 0) (fun _ => 1) ⟨true, 7, 42⟩ ⟨true, 99, 1805⟩
    ⟨Ctl.Running, frameLeds (fun _ => 0) 41, 70, 5⟩ rfl rfl rfl

/-- C2 counterexample: with the program in the panic spin loop and the
panic input deasserted, one more iteration leaves the machine exactly as
it was — still in `PanicSpin`, not rendering — and merely prints the
"System halted." notice.  The claim that deasserting the panic input makes
the system exit PanicHalted and resume rendering is false: the inner
`while (true)` of lines 300-306 has no exit path. -/
theorem panic_release_cex :
    (step (fun _ => 0) ⟨false, 1000, 3⟩ ⟨Ctl.PanicSpin, clearBuf, 70, 0⟩).1.ctl
      = Ctl.PanicSpin
    ∧ (step (fun _ => 0) ⟨false, 1000, 3⟩ ⟨Ctl.PanicSpin, clearBuf, 70, 0⟩).1
      = ⟨Ctl.PanicSpin, clearBuf, 70, 0⟩
    ∧ (step (fun _ => 0) ⟨false, 1000, 3⟩ ⟨Ctl.PanicSpin, clearBuf, 70, 0⟩).2
      = ["Panic button released. System halted."] := by
  refine ⟨rfl, rfl, rfl⟩

/-- C2, amended: once the panic input has been asserted the system stays in
the panic spin loop forever, even after the input is deasserted; the
machine state (control location, LED buffer, brightness) is never changed
again, so rendering never resumes — deassertion only emits an
informational message.  Recovery requires a device reset. -/
theorem panic_spin_absorbing (sinF : ℚ → ℚ) (inp : LoopInput) (m : Machine)
    (hm : m.ctl = Ctl.PanicSpin) :
    (step sinF inp m).1 = m
    ∧ (step sinF inp m).1.ctl = Ctl.PanicSpin
    ∧ (inp.panicLow = false →
        (step sinF inp m).2 = ["Panic button released. System halted."]) := by
  refine ⟨?_, ?_, ?_⟩
  · simp [step, hm]
  · simp [step, hm]
  · intro h; simp [step, hm, h]

/-- Witness for `panic_spin_absorbing` with the panic input released. -/
theorem panic_spin_absorbing_witness :
    (step (fun _ => 0) ⟨false, 77, 9⟩ ⟨Ctl.PanicSpin, clearBuf, 70, 3⟩).1
      = ⟨Ctl.PanicSpin, clearBuf, 70, 3⟩
    ∧ (step (fun _ => 0) ⟨false, 77, 9⟩ ⟨Ctl.PanicSpin, clearBuf, 70, 3⟩).1.ctl
      = Ctl.PanicSpin
    ∧ ((false : Bool) = false →
        (step (fun _ => 0) ⟨false, 77, 9⟩ ⟨Ctl.PanicSpin, clearBuf, 70, 3⟩).2
          = ["Panic button released. System halted."]) :=
  panic_spin_absorbing (fun _ => 0) ⟨false, 77, 9⟩ ⟨Ctl.PanicSpin, clearBuf, 70, 3⟩ rfl

/-- C4: in a rendered frame (running, panic clear, frame due) the machine
enters the session-timeout halt state exactly when the session limit has
passed and `fadeFrac ≤ 0.01`; on entry the output is forced to all-black
and the terminal status message is emitted; and the halt state is
absorbing: every later iteration leaves the machine untouched and emits
nothing, so rendering never resumes. -/
theorem halted_entry_and_absorbing (sinF : ℚ → ℚ) (inp : LoopInput) (m : Machine) :
    (m.ctl = Ctl.Running → inp.panicLow = false →
      ¬(((inp.nowMs : ℤ) - (m.lastFrameMs : ℤ)) % 2 ^ 32 < FRAME_MS) →
      (((step sinF inp m).1.ctl = Ctl.HaltSpin
          ↔ (MAX_SESSION_SECONDS < inp.t ∧ fadeFrac inp.t ≤ 1/100))
        ∧ (MAX_SESSION_SECONDS < inp.t → fadeFrac inp.t ≤ 1/100 →
            (step sinF inp m).1.leds = clearBuf
            ∧ (step sinF inp m).2 = ["Session timeout reached. Shutting down."])))
    ∧ (m.ctl = Ctl.HaltSpin → (step sinF inp m).1 = m ∧ (step sinF inp m).2 = []) := by
  constructor
  · intro hm hp hthr
    have hthr' : ¬ ((inp.nowMs : ℤ) - (m.lastFrameMs : ℤ)) % 4294967296 < FRAME_MS := by
      simpa using hthr
    have hstep : step sinF inp m = frameBody sinF inp.t { m with lastFrameMs := inp.nowMs } := by
      simp [step, hm, hp, hthr']
    rw [hstep]
    unfold frameBody
    split_ifs with h1 h2
    · exact ⟨⟨fun _ => ⟨h1, h2⟩, fun _ => rfl⟩, fun _ _ => ⟨rfl, rfl⟩⟩
    · refine ⟨⟨fun hc => ?_, fun hc => absurd hc.2 h2⟩, fun _ hb => absurd hb h2⟩
      rw [show (({ m with lastFrameMs := inp.nowMs } : Machine).ctl) = Ctl.Running from hm] at hc
      exact absurd hc (by simp)
    · refine ⟨⟨fun hc => ?_, fun hc => absurd hc.1 h1⟩, fun ha _ => absurd ha h1⟩
      rw [show (({ m with lastFrameMs := inp.nowMs } : Machine).ctl) = Ctl.Running from hm] at hc
      exact absurd hc (by simp)
  · intro hm
    constructor <;> simp [step, hm]

/-- Witness for `halted_entry_and_absorbing`: a due frame at t = 1815
(fadeFrac = 0) enters the halt state with black output, and a machine
already halted is left untouched. -/
theorem halted_entry_and_absorbing_witness :
    (((step (fun _ => 0) ⟨false, 100, 1815⟩ ⟨Ctl.Running, clearBuf, 70, 0⟩).1.ctl
        = Ctl.HaltSpin
      ↔ (MAX_SESSION_SECONDS < 1815 ∧ fadeFrac 1815 ≤ 1/100))
      ∧ (MAX_SESSION_SECONDS < 1815 → fadeFrac 1815 ≤ 1/100 →
          (step (fun _ => 0) ⟨false, 100, 1815⟩ ⟨Ctl.Running, clearBuf, 70, 0⟩).1.leds
            = clearBuf
          ∧ (step (fun _ => 0) ⟨false, 100, 1815⟩ ⟨Ctl.Running, clearBuf, 70, 0⟩).2
            = ["Session timeout reached. Shutting down."]))
    ∧ ((step (fun _ => 0) ⟨false, 50, 2000⟩ ⟨Ctl.HaltSpin, clearBuf, 0, 0⟩).1
        = ⟨Ctl.HaltSpin, clearBuf, 0, 0⟩
      ∧ (step (fun _ => 0) ⟨false, 50, 2000⟩ ⟨Ctl.HaltSpin, clearBuf, 0, 0⟩).2 = []) :=
  ⟨(halted_entry_and_absorbing (fun _ => 0) ⟨false, 100, 1815⟩
      ⟨Ctl.Running, clearBuf, 70, 0⟩).1 rfl rfl (by decide),
   (halted_entry_and_absorbing (fun _ => 0) ⟨false, 50, 2000⟩
      ⟨Ctl.HaltSpin, clearBuf, 0, 0⟩).2 rfl⟩

/-- C6: the frame body computed at the same elapsed time `t` from any two
prior states produces the identical LED buffer (the frame content is a
pure function of `t`, independent of which earlier frames executed), and
computing the full frame twice in a row at the same `t` leaves the machine
state (LED buffer, brightness scalar, control) exactly as after the first
computation — no hidden state drift. -/
theorem frame_pure_and_idempotent (sinF : ℚ → ℚ) (t : ℚ) (m₁ m₂ : Machine) :
    (frameBody sinF t m₁).1.leds = (frameBody sinF t m₂).1.leds
    ∧ (frameBody sinF t (frameBody sinF t m₁).1).1 = (frameBody sinF t m₁).1 := by
  unfold frameBody
  split_ifs <;> simp_all

/-! ## Startup (lines 99-106 and 252-288) -/

/-- result of running `setup()`: the stored hardware-timer handle, whether
control falls through to the render loop, and the diagnostic lines emitted
(printf lines are represented by their format strings). -/
structure SetupResult where
  timer : Option Unit
  proceedsToRenderLoop : Bool
  msgs : List String
deriving DecidableEq, Repr

/-- initHardwareTimer (lines 99-106): stores whatever `timerBegin`
returned into the global `timer` and configures interrupt and alarm; the
result of `timerBegin` is never checked. -/
def initHardwareTimer (timerBeginResult : Option Unit) : Option Unit :=
  timerBeginResult

/-- setup (lines 252-288): prints the banner, calls `initHardwareTimer`,
unconditionally prints "Hardware timer initialized", configures the panic
pin and the LED strip, and falls through to the render loop.  There is no
conditional, no abort and no early return anywhere in the function. -/
def setup (timerBeginResult : Option Unit) : SetupResult :=
  { timer := initHardwareTimer timerBeginResult
    proceedsToRenderLoop := true
    msgs :=
      ["========================================",
       "ESP32 Theta Entrainment System",
       "Research-Grade Version",
       "========================================",
       "Hardware timer initialized",
       "Panic button configured on pin 14",
       "LED strip initialized: %d LEDs on pin %d",
       "Left frequency: %.2f Hz",
       "Right frequency: %.2f Hz",
       "Max session time: %.0f seconds (%.1f minutes)",
       "Ramp-in time: %.0f seconds (%.1f minutes)",
       "System ready. Session started.",
       "========================================"] }

/-- C5 counterexample: when the clock interrupt source fails to initialize
(`timerBegin` returns NULL, modelled as `none`), `setup` still reports
"Hardware timer initialized", reports no fatal error, and proceeds to the
render loop — its diagnostic output is identical to the success case. -/
theorem timer_failure_ignored_cex :
    (setup none).proceedsToRenderLoop = true
    ∧ (setup none).timer = none
    ∧ "Hardware timer initialized" ∈ (setup none).msgs
    ∧ (setup none).msgs = (setup (some ())).msgs := by
  refine ⟨rfl, rfl, ?_, rfl⟩
  simp [setup]

/-- C5, amended: the startup code performs no initialization-failure
check: whatever `timerBegin` returned, `setup` stores it, reports success
on the diagnostic channel, and proceeds to the render loop. -/
theorem setup_ignores_timer_failure (r : Option Unit) :
    (setup r).proceedsToRenderLoop = true
    ∧ (setup r).msgs = (setup (some ())).msgs
    ∧ (setup r).timer = r :=
  ⟨rfl, rfl, rfl⟩

end Theta
